import Mathlib

/-!
Verification of the `redstore` session store (package `redstore`):
a Redis-backed store for gorilla sessions with gob serialization and a
random 64-character key generator.

The Go source is embedded shallowly:
* session values (`map[interface{}]interface{}`) become the mutual
  inductive `GobValue` / `GobPairList`;
* the gob codec used by `GobSerializer` is modelled as a
  structure-preserving binary encoding of the values mapping;
* the Redis client is a finite key/value map together with injectable
  transport-failure outcomes, and every command issued is recorded as a
  `CacheOp` so that "writes a blob" / "issues a delete" are statable;
* `RedisStore.Save`, `RedisStore.New`, `RedisStore.save`,
  `RedisStore.load` and `RedisStore.delete` mirror the Go control flow.
-/

namespace Redstore

/-! ## Session values and the gob codec model -/

mutual
/-- Model of a heterogeneous gob value stored in `session.Values`
(`map[interface{}]interface{}`): integers, strings, booleans, and nested
mappings as composite values. -/
inductive GobValue where
  | vInt  : Int → GobValue
  | vStr  : String → GobValue
  | vBool : Bool → GobValue
  | vMap  : GobPairList → GobValue
deriving DecidableEq

/-- A values mapping: a finite list of key/value pairs of gob values. -/
inductive GobPairList where
  | nil  : GobPairList
  | cons : GobValue → GobValue → GobPairList → GobPairList
deriving DecidableEq
end

/-- Unary encoding of a natural number: `n` ones followed by a zero. -/
def encNat : Nat → List Nat
  | 0 => [0]
  | n + 1 => 1 :: encNat n

/-- Decoder for `encNat`; returns the number and the remaining bytes. -/
def decNat : List Nat → Option (Nat × List Nat)
  | 0 :: rest => some (0, rest)
  | 1 :: rest =>
    match decNat rest with
    | some (n, r) => some (n + 1, r)
    | none => none
  | _ => none

/-- Zigzag embedding of the integers into the naturals. -/
def zig (i : Int) : Nat :=
  if 0 ≤ i then 2 * i.toNat else 2 * (-i).toNat - 1

/-- Inverse of `zig`. -/
def unzig (n : Nat) : Int :=
  if n % 2 = 0 then ((n / 2 : Nat) : Int) else -(((n + 1) / 2 : Nat) : Int)

/-- Concatenated unary encodings of the characters of a string. -/
def encChars : List Char → List Nat
  | [] => []
  | c :: cs => encNat c.toNat ++ encChars cs

/-- Count-directed decoder for `encChars`. -/
def decChars : Nat → List Nat → Option (List Char × List Nat)
  | 0, bs => some ([], bs)
  | n + 1, bs =>
    match decNat bs with
    | some (c, r) =>
      match decChars n r with
      | some (cs, r2) => some (Char.ofNat c :: cs, r2)
      | none => none
    | none => none

mutual
/-- Tagged binary encoding of a gob value (models `gob.Encode`). -/
def encVal : GobValue → List Nat
  | .vInt i => 0 :: encNat (zig i)
  | .vStr s => 1 :: (encNat s.toList.length ++ encChars s.toList)
  | .vBool b => [2, if b then 1 else 0]
  | .vMap m => 3 :: encPairs m

/-- Terminator-based encoding of a values mapping. -/
def encPairs : GobPairList → List Nat
  | .nil => [0]
  | .cons k v rest => 1 :: (encVal k ++ (encVal v ++ encPairs rest))
end

mutual
/-- Structural size of a gob value, used as decoder fuel. -/
def sizeV : GobValue → Nat
  | .vInt _ => 1
  | .vStr _ => 1
  | .vBool _ => 1
  | .vMap m => sizeP m + 1

/-- Structural size of a values mapping. -/
def sizeP : GobPairList → Nat
  | .nil => 1
  | .cons k v rest => sizeV k + sizeV v + sizeP rest + 1
end

mutual
/-- Fuelled decoder for `encVal` (models `gob.Decode`). -/
def decVal : Nat → List Nat → Option (GobValue × List Nat)
  | 0, _ => none
  | fuel + 1, bs =>
    match bs with
    | 0 :: rest =>
      match decNat rest with
      | some (n, r) => some (.vInt (unzig n), r)
      | none => none
    | 1 :: rest =>
      match decNat rest with
      | some (n, r) =>
        match decChars n r with
        | some (cs, r2) => some (.vStr (String.mk cs), r2)
        | none => none
      | none => none
    | 2 :: 0 :: rest => some (.vBool false, rest)
    | 2 :: 1 :: rest => some (.vBool true, rest)
    | 3 :: rest =>
      match decPairs fuel rest with
      | some (m, r) => some (.vMap m, r)
      | none => none
    | _ => none

/-- Fuelled decoder for `encPairs`. -/
def decPairs : Nat → List Nat → Option (GobPairList × List Nat)
  | 0, _ => none
  | fuel + 1, bs =>
    match bs with
    | 0 :: rest => some (.nil, rest)
    | 1 :: rest =>
      match decVal fuel rest with
      | some (k, r) =>
        match decVal fuel r with
        | some (v, r2) =>
          match decPairs fuel r2 with
          | some (m, r3) => some (.cons k v m, r3)
          | none => none
        | none => none
      | none => none
    | _ => none
end

/-- The pluggable serializer contract of the store
(`SessionSerializer` interface): serialize a values mapping to bytes
and deserialize bytes back into a values mapping. -/
structure SessionSerializer where
  Serialize : GobPairList → Except String (List Nat)
  Deserialize : List Nat → Except String GobPairList

/-- The default serializer (`GobSerializer` in the source): encodes
`s.Values` with the gob codec model; decoding a non-encoding fails. -/
def GobSerializer : SessionSerializer where
  Serialize := fun values => .ok (encPairs values)
  Deserialize := fun b =>
    match decPairs b.length b with
    | some (m, _) => .ok m
    | none => .error "gob: decode error"

/-! ## Redis client model -/

/-- Errors surfaced by the store: the `redis.Nil` not-found sentinel,
other redis/transport errors, deserialization errors, serialization
errors, and the id-generation error built in `Save`
(`errors.New("redisstore: failed to generate session id")`). -/
inductive StoreErr where
  | redisNil
  | redisErr (msg : String)
  | deserErr (msg : String)
  | serErr (msg : String)
  | keygenErr
deriving DecidableEq

/-- A redis command issued by the store, recorded for the trace. -/
inductive CacheOp where
  | set (key : String) (value : List Nat) (ttlSeconds : Int)
  | get (key : String)
  | del (key : String)
deriving DecidableEq

/-- The key a cache command addresses. -/
def CacheOp.key : CacheOp → String
  | .set k _ _ => k
  | .get k => k
  | .del k => k

/-- Whether a cache command writes a blob. -/
def CacheOp.isSet : CacheOp → Bool
  | .set _ _ _ => true
  | _ => false

/-- Whether a cache command is a delete. -/
def CacheOp.isDel : CacheOp → Bool
  | .del _ => true
  | _ => false

/-- Lookup in an association list keyed by strings. -/
def alistGet : List (String × List Nat) → String → Option (List Nat)
  | [], _ => none
  | (k, v) :: rest, key => if k = key then some v else alistGet rest key

/-- Insert-or-replace in an association list keyed by strings. -/
def alistSet : List (String × List Nat) → String → List Nat →
    List (String × List Nat)
  | [], key, val => [(key, val)]
  | (k, v) :: rest, key, val =>
    if k = key then (key, val) :: rest else (k, v) :: alistSet rest key val

/-- Removal from an association list keyed by strings. -/
def alistDel : List (String × List Nat) → String → List (String × List Nat)
  | [], _ => []
  | (k, v) :: rest, key =>
    if k = key then alistDel rest key else (k, v) :: alistDel rest key

/-- The redis client (`redis.UniversalClient`): its stored key/value
data plus injectable transport-failure outcomes for the next SET, GET
and DEL commands, modelling an unavailable cache. -/
structure RedisClient where
  data : List (String × List Nat)
  setErr : Option String := none
  getErr : Option String := none
  delErr : Option String := none
deriving DecidableEq

/-- `client.Set key value ttl`: fails with the injected transport error
(leaving the data unchanged) or stores the blob. The TTL does not alter
the stored data in this model; it is recorded in the command trace. -/
def RedisClient.Set (c : RedisClient) (key : String) (value : List Nat)
    (_ttlSeconds : Int) : Except StoreErr Unit × RedisClient :=
  match c.setErr with
  | some m => (.error (.redisErr m), c)
  | none => (.ok (), { c with data := alistSet c.data key value })

/-- `client.Get key`: transport failure, the `redis.Nil` sentinel when
the key is absent, or the stored blob. -/
def RedisClient.Get (c : RedisClient) (key : String) :
    Except StoreErr (List Nat) :=
  match c.getErr with
  | some m => .error (.redisErr m)
  | none =>
    match alistGet c.data key with
    | some v => .ok v
    | none => .error .redisNil

/-- `client.Del key`: transport failure or removal; deleting an absent
key succeeds. -/
def RedisClient.Del (c : RedisClient) (key : String) :
    Except StoreErr Unit × RedisClient :=
  match c.delErr with
  | some m => (.error (.redisErr m), c)
  | none => (.ok (), { c with data := alistDel c.data key })

/-! ## Sessions and the store -/

/-- `sessions.Options`: per-session cookie options. -/
structure SessionOptions where
  path : String := "/"
  domain : String := ""
  maxAge : Int := 0
  secure : Bool := false
  httpOnly : Bool := false
deriving DecidableEq

/-- An `http.Cookie` as built by `sessions.NewCookie`; `expiresPast`
models the `Expires = time.Unix(1, 0)` stamp set when max-age is
negative (the cookie-clear instruction). -/
structure Cookie where
  name : String
  value : String
  path : String
  domain : String
  maxAge : Int
  secure : Bool
  httpOnly : Bool
  expiresPast : Bool
deriving DecidableEq

/-- `sessions.NewCookie(name, value, options)`. -/
def NewCookie (name value : String) (o : SessionOptions) : Cookie :=
  { name := name, value := value, path := o.path, domain := o.domain,
    maxAge := o.maxAge, secure := o.secure, httpOnly := o.httpOnly,
    expiresPast := decide (o.maxAge < 0) }

/-- A gorilla `sessions.Session`. -/
structure Session where
  ID : String
  name : String
  Values : GobPairList
  Options : SessionOptions
  IsNew : Bool
deriving DecidableEq

/-- An inbound request, reduced to what the store reads from it:
`r.Cookie(name)`, with `none` modelling the absent-cookie error. -/
structure Request where
  cookie : String → Option String

/-- The session store (`RedisStore`), with the key generator modelled
by the outcome of its next call and the serializer pluggable. -/
structure RedisStore where
  options : SessionOptions
  keyPref : String
  keyGen : Except String String
  serializer : SessionSerializer

/-- `RedisStore.save` (lowercase): serialize the values, then
`client.Set` at `keyPrefix+session.ID` with TTL `MaxAge` seconds.
Returns the result, the client after the call, and the commands
issued. -/
def RedisStore.save (s : RedisStore) (c : RedisClient) (session : Session) :
    Except StoreErr Unit × RedisClient × List CacheOp :=
  match s.serializer.Serialize session.Values with
  | .error m => (.error (.serErr m), c, [])
  | .ok b =>
    let key := s.keyPref ++ session.ID
    let ttl : Int := session.Options.maxAge
    match c.Set key b ttl with
    | (.error e, c2) => (.error e, c2, [.set key b ttl])
    | (.ok _, c2) => (.ok (), c2, [.set key b ttl])

/-- `RedisStore.load`: `client.Get` at `keyPrefix+session.ID`, then
deserialize the blob into the session values. -/
def RedisStore.load (s : RedisStore) (c : RedisClient) (session : Session) :
    Except StoreErr GobPairList × List CacheOp :=
  let key := s.keyPref ++ session.ID
  (match c.Get key with
   | .error e => .error e
   | .ok b =>
     match s.serializer.Deserialize b with
     | .ok vs => .ok vs
     | .error m => .error (.deserErr m),
   [.get key])

/-- `RedisStore.delete`: `client.Del` at `keyPrefix+session.ID`. -/
def RedisStore.delete (s : RedisStore) (c : RedisClient) (session : Session) :
    Except StoreErr Unit × RedisClient × List CacheOp :=
  let key := s.keyPref ++ session.ID
  match c.Del key with
  | (.error e, c2) => (.error e, c2, [.del key])
  | (.ok _, c2) => (.ok (), c2, [.del key])

/-- `RedisStore.New`: build a fresh `IsNew` session with the store's
default options; if the request has no cookie, return it as-is; else
set the id from the cookie and load, mapping `redis.Nil` to success on
the still-new session and propagating every other error. -/
def RedisStore.New (s : RedisStore) (c : RedisClient) (r : Request)
    (name : String) : Session × Option StoreErr :=
  let session : Session :=
    { ID := "", name := name, Values := .nil, Options := s.options,
      IsNew := true }
  match r.cookie name with
  | none => (session, none)
  | some v =>
    let session := { session with ID := v }
    match (s.load c session).1 with
    | .ok vs => ({ session with Values := vs, IsNew := false }, none)
    | .error .redisNil => (session, none)
    | .error e => (session, some e)

/-- The observable outcome of `RedisStore.Save`: the returned error,
the client after the call, the session (whose id `Save` may have
assigned), the cookie passed to `http.SetCookie` if any, and the cache
commands issued. -/
structure SaveOut where
  err : Option StoreErr
  client : RedisClient
  session : Session
  cookie : Option Cookie
  ops : List CacheOp
deriving DecidableEq

/-- The id-resolution block of `Save` (lines 203–209): keep a nonempty
session id; otherwise call the key generator, turning its failure into
`errors.New("redisstore: failed to generate session id")`. -/
def sessionID (s : RedisStore) (session : Session) : Except StoreErr String :=
  if session.ID = "" then
    match s.keyGen with
    | .error _ => .error .keygenErr
    | .ok id => .ok id
  else .ok session.ID

/-- `RedisStore.Save`: if `MaxAge < 0`, delete the entry and on success
set the clearing cookie; otherwise generate an id when the session has
none, write via `save`, and on success set the id-carrying cookie. -/
def RedisStore.Save (s : RedisStore) (c : RedisClient) (session : Session) :
    SaveOut :=
  if session.Options.maxAge < 0 then
    match s.delete c session with
    | (.error e, c2, ops) =>
      { err := some e, client := c2, session := session, cookie := none,
        ops := ops }
    | (.ok _, c2, ops) =>
      { err := none, client := c2, session := session,
        cookie := some (NewCookie session.name "" session.Options),
        ops := ops }
  else
    match sessionID s session with
    | .error e =>
      { err := some e, client := c, session := session, cookie := none,
        ops := [] }
    | .ok id =>
      let session := { session with ID := id }
      match s.save c session with
      | (.error e, c2, ops) =>
        { err := some e, client := c2, session := session, cookie := none,
          ops := ops }
      | (.ok _, c2, ops) =>
        { err := none, client := c2, session := session,
          cookie := some (NewCookie session.name session.ID session.Options),
          ops := ops }

/-! ## Default key generator -/

/-- The fixed alphabet of the default key generator (`letters` in
`NewRedisStore`): digits, upper- and lowercase letters, and hyphen. -/
def letters : String :=
  "0123456789ABCDEFGHIJKLMNOPQRSTUVWXYZabcdefghijklmnopqrstuvwxyz-"

/-- The loop of the default key generator: starting at index `i`, draw
`count` more random indices below 64 via `randInt` (the outcome oracle
of `rand.Int(rand.Reader, big.NewInt(64))`) and map them through
`letters`; the first random-source failure aborts with that error. -/
def keyGenFrom (randInt : Nat → Except String Nat) :
    Nat → Nat → Except String (List Char)
  | _, 0 => .ok []
  | i, count + 1 =>
    match randInt i with
    | .error e => .error e
    | .ok num =>
      match keyGenFrom randInt (i + 1) count with
      | .error e => .error e
      | .ok cs => .ok (letters.data.getD num 'A' :: cs)

/-- The default key generator installed by `NewRedisStore`: 64
characters drawn from `letters` via the secure random source. -/
def keyGenDefault (randInt : Nat → Except String Nat) :
    Except String String :=
  match keyGenFrom randInt 0 64 with
  | .error e => .error e
  | .ok cs => .ok (String.mk cs)

/-! ## Shared concrete fixtures for witnesses -/

/-- Default-like options with a positive max-age. -/
def exOpts : SessionOptions :=
  { path := "/", domain := "", maxAge := 100, secure := false,
    httpOnly := true }

/-- A store with the default prefix and serializer and a key generator
whose next outcome is the id `"K"`. -/
def exStore : RedisStore :=
  { options := exOpts, keyPref := "session:", keyGen := .ok "K",
    serializer := GobSerializer }

/-- An available, empty redis client. -/
def exClient : RedisClient := { data := [] }

/-- A small heterogeneous values mapping (`values["u"] = 42`). -/
def exValues : GobPairList := .cons (.vStr "u") (.vInt 42) .nil

/-- A freshly created session carrying `exValues`. -/
def exSession : Session :=
  { ID := "", name := "sid", Values := exValues, Options := exOpts,
    IsNew := true }

/-- A session with a nonempty id whose options carry max-age zero. -/
def exSession0 : Session :=
  { ID := "sid0", name := "sid", Values := .nil,
    Options := { path := "/", domain := "", maxAge := 0, secure := false,
                 httpOnly := false },
    IsNew := false }

/-- A session with a nonempty id whose options carry max-age `-1`. -/
def exSessionNeg : Session :=
  { ID := "sidn", name := "sid", Values := .nil,
    Options := { path := "/", domain := "", maxAge := -1, secure := false,
                 httpOnly := false },
    IsNew := false }

/-! ## Helper lemmas -/

theorem decNat_encNat (n : Nat) (rest : List Nat) :
    decNat (encNat n ++ rest) = some (n, rest) := by
  induction n with
  | zero => simp [encNat, decNat]
  | succ n ih => simp [encNat, decNat, ih]

theorem unzig_zig (i : Int) : unzig (zig i) = i := by
  unfold zig unzig
  by_cases h : 0 ≤ i
  · simp only [if_pos h]
    have h2 : (2 * i.toNat) % 2 = 0 := by omega
    simp only [if_pos h2]
    omega
  · simp only [if_neg h]
    have h1 : 1 ≤ (-i).toNat := by omega
    have h2 : (2 * (-i).toNat - 1) % 2 = 1 := by omega
    simp only [h2]
    omega

theorem decChars_encChars (cs : List Char) (rest : List Nat) :
    decChars cs.length (encChars cs ++ rest) = some (cs, rest) := by
  induction cs with
  | nil => simp [encChars, decChars]
  | cons c cs ih =>
    simp [encChars, decChars, List.append_assoc, decNat_encNat, ih,
      Char.ofNat_toNat]

theorem sizeV_pos (v : GobValue) : 1 ≤ sizeV v := by
  cases v <;> simp [sizeV]

theorem sizeP_pos (m : GobPairList) : 1 ≤ sizeP m := by
  cases m <;> simp [sizeP]

theorem mk_toList (s : String) : String.mk s.toList = s := by
  cases s
  rfl

theorem str_length_data (s : String) : s.length = s.data.length := rfl

theorem dec_enc (fuel : Nat) :
    (∀ v rest, sizeV v ≤ fuel →
      decVal fuel (encVal v ++ rest) = some (v, rest)) ∧
    (∀ m rest, sizeP m ≤ fuel →
      decPairs fuel (encPairs m ++ rest) = some (m, rest)) := by
  induction fuel with
  | zero =>
    constructor
    · intro v rest h
      exact absurd h (by have := sizeV_pos v; omega)
    · intro m rest h
      exact absurd h (by have := sizeP_pos m; omega)
  | succ fuel ih =>
    constructor
    · intro v rest h
      cases v with
      | vInt i =>
        simp [encVal, decVal, decNat_encNat, unzig_zig]
      | vStr s =>
        obtain ⟨cs⟩ := s
        have hd := decChars_encChars cs rest
        simp [encVal, decVal, List.append_assoc, decNat_encNat,
          String.toList, hd]
      | vBool b =>
        cases b <;> simp [encVal, decVal]
      | vMap m =>
        have hm : sizeP m ≤ fuel := by simp [sizeV] at h; omega
        simp [encVal, decVal, ih.2 m rest hm]
    · intro m rest h
      cases m with
      | nil => simp [encPairs, decPairs]
      | cons k v r =>
        have hk : sizeV k ≤ fuel := by simp [sizeP] at h; omega
        have hv : sizeV v ≤ fuel := by simp [sizeP] at h; omega
        have hr : sizeP r ≤ fuel := by simp [sizeP] at h; omega
        simp [encPairs, decPairs, List.append_assoc,
          ih.1 k _ hk, ih.1 v _ hv, ih.2 r _ hr]

mutual
theorem sizeV_le_encVal (v : GobValue) : sizeV v ≤ (encVal v).length := by
  cases v with
  | vInt i => simp [sizeV, encVal]
  | vStr s => simp [sizeV, encVal]
  | vBool b => simp [sizeV, encVal]
  | vMap m =>
    have := sizeP_le_encPairs m
    simp [sizeV, encVal]
    omega

theorem sizeP_le_encPairs (m : GobPairList) : sizeP m ≤ (encPairs m).length := by
  cases m with
  | nil => simp [sizeP, encPairs]
  | cons k v r =>
    have h1 := sizeV_le_encVal k
    have h2 := sizeV_le_encVal v
    have h3 := sizeP_le_encPairs r
    simp [sizeP, encPairs]
    omega
end

theorem GobSerializer_deser_enc (V : GobPairList) :
    GobSerializer.Deserialize (encPairs V) = .ok V := by
  have h := (dec_enc (encPairs V).length).2 V [] (sizeP_le_encPairs V)
  rw [List.append_nil] at h
  simp [GobSerializer, h]

theorem alistGet_alistSet (d : List (String × List Nat)) (k : String)
    (v : List Nat) : alistGet (alistSet d k v) k = some v := by
  induction d with
  | nil => simp [alistSet, alistGet]
  | cons p rest ih =>
    obtain ⟨pk, pv⟩ := p
    by_cases h : pk = k
    · simp [alistSet, alistGet, h]
    · simp [alistSet, alistGet, h, ih]

/-! ## Claim theorems -/

/-- C2: for every values mapping `V`, including the empty mapping and
mappings with nested composite values, deserializing the result of
serializing `V` with the default gob serializer yields `V`
(round-trip law). -/
theorem serializer_roundtrip (V : GobPairList) :
    (GobSerializer.Serialize V).bind GobSerializer.Deserialize =
      Except.ok V := by
  show GobSerializer.Deserialize (encPairs V) = Except.ok V
  exact GobSerializer_deser_enc V

/-- C5: `New` returns a fresh `IsNew` session with no error whenever no
stored session exists: with no cookie for the name it returns
`IsNew = true` and `ID = ""` without loading; with a cookie whose id
has no cache entry (`redis.Nil`) it also returns `IsNew = true` and no
error. -/
theorem New_fresh_session (s : RedisStore) (c : RedisClient) (r : Request)
    (name : String)
    (h : r.cookie name = none ∨
      ∃ v, r.cookie name = some v ∧ c.getErr = none ∧
        alistGet c.data (s.keyPref ++ v) = none) :
    (s.New c r name).1.IsNew = true ∧ (s.New c r name).2 = none ∧
    (r.cookie name = none → (s.New c r name).1.ID = "") := by
  rcases h with h | ⟨v, hv, hg, ha⟩
  · simp [RedisStore.New, h]
  · refine ⟨?_, ?_, ?_⟩
    · simp [RedisStore.New, hv, RedisStore.load, RedisClient.Get, hg, ha]
    · simp [RedisStore.New, hv, RedisStore.load, RedisClient.Get, hg, ha]
    · intro hnone
      rw [hnone] at hv
      exact absurd hv (by simp)

/-- Witness for C5 at a concrete cookieless request. -/
theorem New_fresh_session_witness :
    (exStore.New exClient ⟨fun _ => none⟩ "sid").1.IsNew = true ∧
    (exStore.New exClient ⟨fun _ => none⟩ "sid").2 = none ∧
    (exStore.New exClient ⟨fun _ => none⟩ "sid").1.ID = "" := by
  have h := New_fresh_session exStore exClient ⟨fun _ => none⟩ "sid"
    (Or.inl rfl)
  exact ⟨h.1, h.2.1, h.2.2 rfl⟩

/-- C6: when the request carries a cookie whose id maps to a present
but corrupted blob, `New` propagates the deserialization error instead
of silently returning a fresh error-free session. -/
theorem New_corrupt_blob_propagates (s : RedisStore) (c : RedisClient)
    (r : Request) (name v : String) (b : List Nat) (m : String)
    (hv : r.cookie name = some v)
    (hg : c.getErr = none)
    (ha : alistGet c.data (s.keyPref ++ v) = some b)
    (hd : s.serializer.Deserialize b = .error m) :
    (s.New c r name).2 = some (.deserErr m) := by
  simp [RedisStore.New, hv, RedisStore.load, RedisClient.Get, hg, ha, hd]

/-- Witness for C6: a one-byte blob `[5]` is not a gob encoding. -/
theorem New_corrupt_blob_witness :
    (exStore.New ⟨[("session:k1", [5])], none, none, none⟩
        ⟨fun _ => some "k1"⟩ "sid").2 =
      some (.deserErr "gob: decode error") :=
  New_corrupt_blob_propagates exStore
    ⟨[("session:k1", [5])], none, none, none⟩ ⟨fun _ => some "k1"⟩
    "sid" "k1" [5] "gob: decode error" rfl rfl rfl rfl

/-- C3 counterexample: at max-age exactly zero — which the claim's
"max-age ≤ 0" covers — `Save` writes a blob, issues no delete, and
sets a cookie carrying the session id rather than a clear
instruction. -/
theorem save_zero_maxAge_cex :
    exSession0.Options.maxAge ≤ 0 ∧
    (exStore.Save exClient exSession0).ops =
      [.set "session:sid0" (encPairs .nil) 0] ∧
    (∀ op ∈ (exStore.Save exClient exSession0).ops, op.isDel = false) ∧
    (exStore.Save exClient exSession0).cookie =
      some (NewCookie "sid" "sid0" exSession0.Options) ∧
    alistGet (exStore.Save exClient exSession0).client.data
      "session:sid0" = some (encPairs .nil) := by
  refine ⟨by decide, rfl, ?_, rfl, rfl⟩
  decide

/-- C3 (amended): for every session whose options max-age is strictly
negative at save time, `Save` issues exactly one cache command — a
delete of the session's key — never writes a blob, and, when the cache
is reachable, succeeds and instructs the transport to clear the cookie
(empty value). -/
theorem save_negative_is_delete (s : RedisStore) (c : RedisClient)
    (sess : Session) (h : sess.Options.maxAge < 0) :
    (s.Save c sess).ops = [.del (s.keyPref ++ sess.ID)] ∧
    (∀ op ∈ (s.Save c sess).ops, op.isSet = false) ∧
    (c.delErr = none →
      (s.Save c sess).err = none ∧
      (s.Save c sess).cookie = some (NewCookie sess.name "" sess.Options) ∧
      (s.Save c sess).client.data =
        alistDel c.data (s.keyPref ++ sess.ID)) := by
  cases hd : c.delErr with
  | none =>
    simp [RedisStore.Save, if_pos h, RedisStore.delete, RedisClient.Del, hd,
      CacheOp.isSet]
  | some m =>
    simp [RedisStore.Save, if_pos h, RedisStore.delete, RedisClient.Del, hd,
      CacheOp.isSet]

/-- Witness for C3's amended statement at a concrete negative-max-age
session. -/
theorem save_negative_is_delete_witness :
    (exStore.Save exClient exSessionNeg).ops = [.del "session:sidn"] ∧
    (exStore.Save exClient exSessionNeg).err = none ∧
    (exStore.Save exClient exSessionNeg).cookie =
      some (NewCookie "sid" "" exSessionNeg.Options) := by
  have h := save_negative_is_delete exStore exClient exSessionNeg
    (by decide)
  exact ⟨h.1, (h.2.2 rfl).1, (h.2.2 rfl).2.1⟩

/-- C4: with strictly negative max-age, `Save` never writes a cache
blob, always issues the cache delete (which succeeds even when the key
is absent — no presence hypothesis below), and issues a cookie-clear
instruction: an empty-valued, past-expiring cookie on the session's
path and domain. -/
theorem save_negative_never_writes (s : RedisStore) (c : RedisClient)
    (sess : Session) (h : sess.Options.maxAge < 0)
    (hdel : c.delErr = none) :
    (s.Save c sess).err = none ∧
    (∀ op ∈ (s.Save c sess).ops, op.isSet = false) ∧
    (s.Save c sess).ops.any CacheOp.isDel = true ∧
    ∃ ck, (s.Save c sess).cookie = some ck ∧ ck.value = "" ∧
      ck.expiresPast = true ∧ ck.path = sess.Options.path ∧
      ck.domain = sess.Options.domain := by
  refine ⟨?_, ?_, ?_, NewCookie sess.name "" sess.Options, ?_, rfl, ?_, rfl,
    rfl⟩ <;>
    simp [RedisStore.Save, if_pos h, RedisStore.delete, RedisClient.Del,
      hdel, CacheOp.isSet, CacheOp.isDel, NewCookie, h]

/-- Witness for C4 on an empty cache: the deleted key does not exist,
yet `Save` succeeds and clears the cookie. -/
theorem save_negative_never_writes_witness :
    (exStore.Save exClient exSessionNeg).err = none ∧
    (exStore.Save exClient exSessionNeg).ops.any CacheOp.isDel = true := by
  have h := save_negative_never_writes exStore exClient exSessionNeg
    (by decide) rfl
  exact ⟨h.1, h.2.2.1⟩

/-- C10: with max-age exactly zero, `Save` takes the write path:
it resolves the id (generating one only when the session has none),
issues exactly one cache command — a SET at `prefix+id` with zero
expiration — sets a cookie carrying the id, and issues no delete. -/
theorem save_zero_maxAge_writes (s : RedisStore) (c : RedisClient)
    (sess : Session) (g : String)
    (h0 : sess.Options.maxAge = 0)
    (hser : s.serializer = GobSerializer)
    (hset : c.setErr = none)
    (hg : sess.ID = "" → s.keyGen = .ok g)
    (hg2 : sess.ID ≠ "" → g = sess.ID) :
    (s.Save c sess).err = none ∧
    (s.Save c sess).session.ID = g ∧
    (s.Save c sess).ops =
      [.set (s.keyPref ++ g) (encPairs sess.Values) 0] ∧
    (∀ op ∈ (s.Save c sess).ops, op.isDel = false) ∧
    (s.Save c sess).cookie =
      some (NewCookie sess.name g sess.Options) ∧
    (s.Save c sess).client.data =
      alistSet c.data (s.keyPref ++ g) (encPairs sess.Values) := by
  have hma : ¬sess.Options.maxAge < 0 := by omega
  by_cases hID : sess.ID = ""
  · have hkg := hg hID
    simp [RedisStore.Save, if_neg hma, sessionID, hID, hkg, RedisStore.save,
      hser, GobSerializer, RedisClient.Set, hset, CacheOp.isDel, h0]
  · have hgid := hg2 hID
    subst hgid
    simp [RedisStore.Save, if_neg hma, sessionID, hID, RedisStore.save,
      hser, GobSerializer, RedisClient.Set, hset, CacheOp.isDel, h0]

/-- Witness for C10 at a session with max-age zero and id `"sid0"`. -/
theorem save_zero_maxAge_writes_witness :
    (exStore.Save exClient exSession0).err = none ∧
    (exStore.Save exClient exSession0).ops =
      [.set "session:sid0" (encPairs .nil) 0] ∧
    (exStore.Save exClient exSession0).cookie =
      some (NewCookie "sid" "sid0" exSession0.Options) := by
  have h := save_zero_maxAge_writes exStore exClient exSession0 "sid0" rfl
    rfl rfl (fun hc => absurd hc (by decide)) (fun _ => rfl)
  exact ⟨h.1, h.2.2.1, h.2.2.2.2.1⟩

/-- C7: the write path of `Save` fails atomically: a key-generation
failure yields the descriptive error with no cache command and no
cookie; a serialization failure is propagated with no cache command
and no cookie; a cache-write failure is propagated with the client
state unchanged and no cookie. -/
theorem save_write_atomicity (s : RedisStore) (c : RedisClient)
    (sess : Session) (hma : ¬sess.Options.maxAge < 0) :
    ((sess.ID = "" ∧ ∃ e, s.keyGen = .error e) →
      (s.Save c sess).err = some .keygenErr ∧
      (s.Save c sess).client = c ∧ (s.Save c sess).ops = [] ∧
      (s.Save c sess).cookie = none) ∧
    (∀ m, s.serializer.Serialize sess.Values = .error m →
      (sess.ID = "" → ∃ g, s.keyGen = .ok g) →
      (s.Save c sess).err = some (.serErr m) ∧
      (s.Save c sess).client = c ∧ (s.Save c sess).ops = [] ∧
      (s.Save c sess).cookie = none) ∧
    (∀ em, c.setErr = some em →
      (∃ b, s.serializer.Serialize sess.Values = .ok b) →
      (sess.ID = "" → ∃ g, s.keyGen = .ok g) →
      (s.Save c sess).err = some (.redisErr em) ∧
      (s.Save c sess).client = c ∧
      (s.Save c sess).cookie = none) := by
  refine ⟨?_, ?_, ?_⟩
  · rintro ⟨hID, e, he⟩
    simp [RedisStore.Save, if_neg hma, sessionID, hID, he]
  · intro m hm hkg
    by_cases hID : sess.ID = ""
    · obtain ⟨g, hg⟩ := hkg hID
      simp [RedisStore.Save, if_neg hma, sessionID, hID, hg,
        RedisStore.save, hm]
    · simp [RedisStore.Save, if_neg hma, sessionID, hID,
        RedisStore.save, hm]
  · intro em hem hb hkg
    obtain ⟨b, hbv⟩ := hb
    by_cases hID : sess.ID = ""
    · obtain ⟨g, hg⟩ := hkg hID
      simp [RedisStore.Save, if_neg hma, sessionID, hID, hg,
        RedisStore.save, hbv, RedisClient.Set, hem]
    · simp [RedisStore.Save, if_neg hma, sessionID, hID,
        RedisStore.save, hbv, RedisClient.Set, hem]

/-- Witness for C7's key-generation-failure case at a store whose
generator's next outcome is a random-source error. -/
theorem save_write_atomicity_witness :
    ({ exStore with keyGen := .error "entropy" }.Save exClient
        exSession).err = some .keygenErr ∧
    ({ exStore with keyGen := .error "entropy" }.Save exClient
        exSession).client = exClient ∧
    ({ exStore with keyGen := .error "entropy" }.Save exClient
        exSession).ops = [] ∧
    ({ exStore with keyGen := .error "entropy" }.Save exClient
        exSession).cookie = none :=
  (save_write_atomicity { exStore with keyGen := .error "entropy" }
    exClient exSession (by decide)).1 ⟨rfl, "entropy", rfl⟩

theorem Save_preserves_ID (s : RedisStore) (c : RedisClient)
    (sess : Session) (h : sess.ID ≠ "") :
    (s.Save c sess).session.ID = sess.ID := by
  by_cases hma : sess.Options.maxAge < 0
  · cases hd : c.delErr <;>
      simp [RedisStore.Save, if_pos hma, RedisStore.delete,
        RedisClient.Del, hd]
  · have hid : sessionID s sess = .ok sess.ID := by simp [sessionID, h]
    rcases hsv : s.save c { sess with ID := sess.ID } with ⟨res, c2, ops⟩
    cases res <;>
      simp [RedisStore.Save, if_neg hma, hid, hsv]

/-- C9: every cache command issued by `save`, `load` and `delete`
addresses exactly the key `prefix + id`; `Save` generates a fresh id
only when the session's id is empty, so a session with a nonempty id
keeps it — and hence its cache key — across sequential saves. -/
theorem cache_key_discipline (s : RedisStore) (c : RedisClient)
    (sess : Session) :
    (∀ op ∈ (s.save c sess).2.2, op.key = s.keyPref ++ sess.ID) ∧
    (∀ op ∈ (s.load c sess).2, op.key = s.keyPref ++ sess.ID) ∧
    (∀ op ∈ (s.delete c sess).2.2, op.key = s.keyPref ++ sess.ID) ∧
    (sess.ID ≠ "" → (s.Save c sess).session.ID = sess.ID) ∧
    (sess.ID ≠ "" →
      (s.Save (s.Save c sess).client
        (s.Save c sess).session).session.ID = sess.ID) ∧
    (sess.ID = "" → ¬sess.Options.maxAge < 0 →
      ∀ g, s.keyGen = .ok g → (s.Save c sess).session.ID = g) := by
  refine ⟨?_, ?_, ?_, Save_preserves_ID s c sess, ?_, ?_⟩
  · intro op hop
    cases hs : s.serializer.Serialize sess.Values with
    | error m => simp [RedisStore.save, hs] at hop
    | ok b =>
      cases hset : c.setErr <;>
        [skip; skip] <;>
        · simp [RedisStore.save, hs, RedisClient.Set, hset] at hop
          simp [hop, CacheOp.key]
  · intro op hop
    simp [RedisStore.load] at hop
    simp [hop, CacheOp.key]
  · intro op hop
    cases hd : c.delErr <;>
      · simp [RedisStore.delete, RedisClient.Del, hd] at hop
        simp [hop, CacheOp.key]
  · intro h
    have h1 := Save_preserves_ID s c sess h
    have h2 : (s.Save c sess).session.ID ≠ "" := by rw [h1]; exact h
    rw [Save_preserves_ID _ _ _ h2, h1]
  · intro hID hma g hg
    have hid : sessionID s sess = .ok g := by simp [sessionID, hID, hg]
    rcases hsv : s.save c { sess with ID := g } with ⟨res, c2, ops⟩
    cases res <;>
      simp [RedisStore.Save, if_neg hma, hid, hsv]

/-- Witness for C9: a saved session with id `"sid0"` keeps that id
across two sequential saves, and its write addresses
`"session:sid0"`. -/
theorem cache_key_discipline_witness :
    (exStore.Save exClient exSession0).session.ID = "sid0" ∧
    (exStore.Save (exStore.Save exClient exSession0).client
      (exStore.Save exClient exSession0).session).session.ID = "sid0" ∧
    (∀ op ∈ (exStore.save exClient exSession0).2.2,
      op.key = "session:sid0") := by
  have h := cache_key_discipline exStore exClient exSession0
  exact ⟨h.2.2.2.1 (by decide), h.2.2.2.2.1 (by decide), h.1⟩

/-- C1: a successful `Save` with non-negative max-age followed by `New`
presenting the cookie it produced returns a session with
`IsNew = false` and `Values` equal to what was saved (the cache entry,
which does not expire in this model, is read back through the
round-tripping serializer). -/
theorem save_then_construct_loads (s : RedisStore) (c : RedisClient)
    (sess : Session)
    (hser : s.serializer = GobSerializer)
    (hma : 0 ≤ sess.Options.maxAge)
    (hok : (s.Save c sess).err = none)
    (hget : c.getErr = none) :
    (s.Save c sess).cookie.isSome = true ∧
    ∀ ck, (s.Save c sess).cookie = some ck →
      (s.New (s.Save c sess).client
          ⟨fun n => if n = sess.name then some ck.value else none⟩
          sess.name).1.IsNew = false ∧
      (s.New (s.Save c sess).client
          ⟨fun n => if n = sess.name then some ck.value else none⟩
          sess.name).1.Values = sess.Values ∧
      (s.New (s.Save c sess).client
          ⟨fun n => if n = sess.name then some ck.value else none⟩
          sess.name).2 = none := by
  have hma' : ¬sess.Options.maxAge < 0 := by omega
  obtain ⟨id, hid⟩ : ∃ id, sessionID s sess = .ok id := by
    by_cases hID : sess.ID = ""
    · cases hkg : s.keyGen with
      | error e =>
        exfalso
        simp [RedisStore.Save, if_neg hma', sessionID, hID, hkg] at hok
      | ok g => exact ⟨g, by simp [sessionID, hID, hkg]⟩
    · exact ⟨sess.ID, by simp [sessionID, hID]⟩
  cases hset : c.setErr with
  | some m =>
    exfalso
    simp [RedisStore.Save, if_neg hma', hid, RedisStore.save, hser,
      GobSerializer, RedisClient.Set, hset] at hok
  | none =>
    have hSave : s.Save c sess =
        { err := none,
          client :=
            { c with
              data := alistSet c.data (s.keyPref ++ id)
                        (encPairs sess.Values) },
          session := { sess with ID := id },
          cookie := some (NewCookie sess.name id sess.Options),
          ops := [.set (s.keyPref ++ id) (encPairs sess.Values)
            sess.Options.maxAge] } := by
      simp [RedisStore.Save, if_neg hma', hid, RedisStore.save, hser,
        GobSerializer, RedisClient.Set, hset]
    rw [hSave]
    refine ⟨rfl, ?_⟩
    intro ck hck
    have hckv : ck = NewCookie sess.name id sess.Options :=
      (Option.some.inj hck).symm
    subst hckv
    simp [RedisStore.New, NewCookie, RedisStore.load, RedisClient.Get,
      hget, alistGet_alistSet, hser, GobSerializer_deser_enc]

set_option maxRecDepth 8000 in
/-- Witness for C1 at a concrete store, client and session: the id
`"K"` generated by the save is presented back as the cookie value. -/
theorem save_then_construct_loads_witness :
    (exStore.New (exStore.Save exClient exSession).client
        ⟨fun n => if n = "sid" then
          some (NewCookie "sid" "K" exOpts).value else none⟩
        "sid").1.IsNew = false ∧
    (exStore.New (exStore.Save exClient exSession).client
        ⟨fun n => if n = "sid" then
          some (NewCookie "sid" "K" exOpts).value else none⟩
        "sid").1.Values = exValues ∧
    (exStore.New (exStore.Save exClient exSession).client
        ⟨fun n => if n = "sid" then
          some (NewCookie "sid" "K" exOpts).value else none⟩
        "sid").2 = none :=
  (save_then_construct_loads exStore exClient exSession rfl (by decide)
    rfl rfl).2 (NewCookie "sid" "K" exOpts) rfl

theorem getD_mem : ∀ (l : List Char) (n : Nat), n < l.length → ∀ d : Char,
    l[n]?.getD d ∈ l := by
  intro l
  induction l with
  | nil => intro n h; simp at h
  | cons a l ih =>
    intro n h d
    cases n with
    | zero => simp
    | succ n =>
      have := ih n (by simp at h; omega) d
      simp at this ⊢
      exact Or.inr this

theorem keyGenFrom_ok_length (randInt : Nat → Except String Nat) :
    ∀ count i cs, keyGenFrom randInt i count = .ok cs →
      cs.length = count := by
  intro count
  induction count with
  | zero =>
    intro i cs h
    simp [keyGenFrom] at h
    simp [← h]
  | succ n ih =>
    intro i cs h
    cases h1 : randInt i with
    | error e => simp [keyGenFrom, h1] at h
    | ok num =>
      cases h2 : keyGenFrom randInt (i + 1) n with
      | error e => simp [keyGenFrom, h1, h2] at h
      | ok cs2 =>
        simp [keyGenFrom, h1, h2] at h
        have := ih (i + 1) cs2 h2
        simp [← h, this]

theorem keyGenFrom_ok_mem (randInt : Nat → Except String Nat)
    (hr : ∀ i n, randInt i = .ok n → n < 63) :
    ∀ count i cs, keyGenFrom randInt i count = .ok cs →
      ∀ ch ∈ cs, ch ∈ letters.data := by
  intro count
  induction count with
  | zero =>
    intro i cs h ch hch
    simp [keyGenFrom] at h
    subst h
    simp at hch
  | succ n ih =>
    intro i cs h ch hch
    cases h1 : randInt i with
    | error e => simp [keyGenFrom, h1] at h
    | ok num =>
      cases h2 : keyGenFrom randInt (i + 1) n with
      | error e => simp [keyGenFrom, h1, h2] at h
      | ok cs2 =>
        simp [keyGenFrom, h1, h2] at h
        subst h
        rcases List.mem_cons.mp hch with hh | ht
        · rw [hh]
          have hlt : num < letters.data.length := by
            have := hr i num h1
            have hlen : letters.data.length = 63 := by decide
            omega
          have := getD_mem letters.data num hlt 'A'
          simpa [List.getD] using this
        · exact ih (i + 1) cs2 h2 ch ht

theorem keyGenFrom_err (randInt : Nat → Except String Nat) :
    ∀ count i k e, k < count → randInt (i + k) = .error e →
      (∀ j, j < k → ∃ n, randInt (i + j) = .ok n) →
      keyGenFrom randInt i count = .error e := by
  intro count
  induction count with
  | zero => intro i k e hk; omega
  | succ n ih =>
    intro i k e hk he hprev
    cases k with
    | zero =>
      have he0 : randInt i = .error e := by simpa using he
      simp [keyGenFrom, he0]
    | succ k2 =>
      obtain ⟨n0, hn0⟩ := hprev 0 (by omega)
      have hn0i : randInt i = .ok n0 := by simpa using hn0
      have hrec : keyGenFrom randInt (i + 1) n = .error e := by
        have hadd : i + 1 + k2 = i + (k2 + 1) := by omega
        refine ih (i + 1) k2 e (by omega) (by rw [hadd]; exact he) ?_
        intro j hj
        have := hprev (j + 1) (by omega)
        have hadd2 : i + 1 + j = i + (j + 1) := by omega
        rw [hadd2]
        exact this
      simp [keyGenFrom, hn0i, hrec]

/-- C8 counterexample: the fixed alphabet of the default key generator
has 63 characters (10 digits, 26 uppercase, 26 lowercase, one hyphen),
not 64 as claimed. -/
theorem keyGen_alphabet_size_cex :
    letters.length = 63 ∧ letters.length ≠ 64 := by
  constructor <;> decide

/-- C8 (amended): under the `rand.Int` contract that every successful
draw is below the alphabet size 63, the default key generator returns
on success a string of length exactly 64 over the fixed 63-character,
duplicate-free alphanumeric-plus-hyphen alphabet, and propagates the
error of the first failing draw of the secure random source. -/
theorem keyGenDefault_spec (randInt : Nat → Except String Nat)
    (hr : ∀ i n, randInt i = .ok n → n < 63) :
    letters.length = 63 ∧ letters.data.Nodup ∧
    (∀ str, keyGenDefault randInt = .ok str →
      str.length = 64 ∧ ∀ ch ∈ str.data, ch ∈ letters.data) ∧
    (∀ i e, i < 64 → randInt i = .error e →
      (∀ j, j < i → ∃ n, randInt j = .ok n) →
      keyGenDefault randInt = .error e) := by
  refine ⟨by decide, by decide, ?_, ?_⟩
  · intro str h
    cases hk : keyGenFrom randInt 0 64 with
    | error e => simp [keyGenDefault, hk] at h
    | ok cs =>
      simp [keyGenDefault, hk] at h
      constructor
      · rw [← h]
        exact keyGenFrom_ok_length randInt 64 0 cs hk
      · intro ch hch
        rw [← h] at hch
        exact keyGenFrom_ok_mem randInt hr 64 0 cs hk ch hch
  · intro i e hi he hprev
    have hk : keyGenFrom randInt 0 64 = .error e := by
      refine keyGenFrom_err randInt 64 0 i e hi (by simpa using he) ?_
      intro j hj
      simpa using hprev j hj
    simp [keyGenDefault, hk]

set_option maxRecDepth 2000 in
/-- Witness for C8 with the constant draw `0`: the generated id is 64
characters of `'0'`, all inside the alphabet. -/
theorem keyGenDefault_witness :
    (String.mk (List.replicate 64 '0')).length = 64 ∧
    ∀ ch ∈ (String.mk (List.replicate 64 '0')).data, ch ∈ letters.data :=
  (keyGenDefault_spec (fun _ => .ok 0)
    (by intro i n h; cases h; omega)).2.2.1 _ rfl

end Redstore
